import Mathlib

/-!
Verification of the attendance-tracking web application (`app.py`).

The application keeps two SQLite tables, `sessions` and `attendance`,
and exposes four state-relevant HTTP operations:

* `create_session` (POST `/create-session`),
* `home` (GET `/`, listing the sessions),
* `session_detail` (GET `/session/<token>`, listing a session's attendance),
* `mark_attendance` (POST `/api/mark-attendance`).

We embed the database as explicit lists of rows together with the
auto-increment counters of the two tables, and each route as a pure
function from the request data and the database to the new database and
the HTTP outcome.  The random token of `secrets.token_urlsafe(10)` and
the clock readings of `datetime.utcnow()` are passed in as parameters.
-/

namespace AttendanceApp

/-- A row of the `sessions` table:
`id INTEGER PRIMARY KEY AUTOINCREMENT, token TEXT UNIQUE NOT NULL,
class_name TEXT NOT NULL, created_at TEXT NOT NULL`. -/
structure Session where
  id : Nat
  token : String
  class_name : String
  created_at : String
deriving Repr, DecidableEq

/-- A row of the `attendance` table:
`id INTEGER PRIMARY KEY AUTOINCREMENT, session_id INTEGER NOT NULL,
student_id TEXT NOT NULL, student_name TEXT NOT NULL,
marked_at TEXT NOT NULL, UNIQUE(session_id, student_id)`. -/
structure AttendanceRecord where
  id : Nat
  session_id : Nat
  student_id : String
  student_name : String
  marked_at : String
deriving Repr, DecidableEq

/-- The persistent state: the two tables (rows in insertion order) and
the next value of each table's auto-increment `id`. -/
structure DB where
  sessions : List Session
  attendance : List AttendanceRecord
  nextSessionId : Nat
  nextAttendanceId : Nat
deriving Repr, DecidableEq

/-- The state right after `init_db()`: both tables empty, SQLite
auto-increment counters starting at 1. -/
def initDB : DB := ⟨[], [], 1, 1⟩

/-- Python's `str.strip()` on the character list: drop whitespace from
the front, then from the back. -/
def stripList (l : List Char) : List Char :=
  ((l.dropWhile Char.isWhitespace).reverse.dropWhile Char.isWhitespace).reverse

/-- Python's `str.strip()`: the string without leading and trailing
whitespace. -/
def strip (s : String) : String := ⟨stripList s.data⟩

/-- Lexicographic order on character lists: how SQLite compares `TEXT`
values (`memcmp` order, which on these ASCII timestamps agrees with
codepoint order). -/
def listLe : List Char → List Char → Bool
  | [], _ => true
  | _ :: _, [] => false
  | a :: as, b :: bs =>
    if a < b then true
    else if b < a then false
    else listLe as bs

/-- SQLite's `<=` on `TEXT` values. -/
def strLe (s t : String) : Bool := listLe s.data t.data

/-- The JSON body of a `/api/mark-attendance` request; each field is
`none` when the key is absent from the JSON object. -/
structure Payload where
  token : Option String
  student_id : Option String
  student_name : Option String
deriving Repr, DecidableEq

/-- Outcome of POST `/create-session`: redisplay of the home page
(blank name), redirect to the new session's detail page, or the
uncaught `IntegrityError` of a token collision (a generic server
error). -/
inductive CreateResult where
  | redirectHome : CreateResult
  | redirectDetail : String → CreateResult
  | serverError : CreateResult
deriving Repr, DecidableEq

/-- `ORDER BY <key> DESC`: insert `x` before the first element it is
greater-or-equal to, where `ge x y` reads "`x` sorts no later than `y`". -/
def insertGE {α : Type} (ge : α → α → Bool) (x : α) : List α → List α
  | [] => [x]
  | y :: ys => if ge x y then x :: y :: ys else y :: insertGE ge x ys

/-- Insertion sort realising SQL's `ORDER BY <key> DESC`. -/
def sortGE {α : Type} (ge : α → α → Bool) : List α → List α
  | [] => []
  | x :: xs => insertGE ge x (sortGE ge xs)

/-- GET `/`: `SELECT id, token, class_name, created_at FROM sessions
ORDER BY id DESC` — the rows handed to the home template. -/
def home (db : DB) : List Session :=
  sortGE (fun a b => decide (b.id ≤ a.id)) db.sessions

/-- POST `/create-session` with form field `class_name`; `token` is the
value drawn by `secrets.token_urlsafe(10)` and `now` the clock reading.
A blank name redirects home without touching the database; a duplicate
token makes the `INSERT` raise an uncaught `IntegrityError` (the
`UNIQUE` constraint on `token`), leaving the table unchanged. -/
def create_session (class_name : String) (token : String) (now : String)
    (db : DB) : DB × CreateResult :=
  let cn := strip class_name
  if cn = "" then
    (db, .redirectHome)
  else if db.sessions.any (fun s => s.token == token) then
    (db, .serverError)
  else
    ({ db with
        sessions := db.sessions ++ [⟨db.nextSessionId, token, cn, now⟩],
        nextSessionId := db.nextSessionId + 1 },
      .redirectDetail token)

/-- GET `/session/<token>`: looks the session up by token (`none` is
the 404 page) and returns it with
`SELECT student_id, student_name, marked_at FROM attendance
WHERE session_id = ? ORDER BY marked_at DESC`. -/
def session_detail (token : String) (db : DB) :
    Option (Session × List AttendanceRecord) :=
  match db.sessions.find? (fun s => s.token == token) with
  | none => none
  | some s =>
    some (s, sortGE (fun a b => strLe b.marked_at a.marked_at)
      (db.attendance.filter (fun r => r.session_id == s.id)))

/-- POST `/api/mark-attendance`.  `payload` is `request.get_json
(silent := True)`: `none` when the body is absent or not valid JSON, in
which case `or {}` substitutes the empty object.  Each field is read
with `payload.get(key) or ""` and stripped.  Returns the new database
and the HTTP status (200, 400, 404 or 409). -/
def mark_attendance (payload : Option Payload) (now : String) (db : DB) :
    DB × Nat :=
  let p := payload.getD ⟨none, none, none⟩
  let token := strip (p.token.getD "")
  let student_id := strip (p.student_id.getD "")
  let student_name := strip (p.student_name.getD "")
  if token = "" ∨ student_id = "" ∨ student_name = "" then
    (db, 400)
  else
    match db.sessions.find? (fun s => s.token == token) with
    | none => (db, 404)
    | some s =>
      if db.attendance.any
          (fun r => r.session_id == s.id && r.student_id == student_id) then
        (db, 409)
      else
        ({ db with
            attendance := db.attendance ++
              [⟨db.nextAttendanceId, s.id, student_id, student_name, now⟩],
            nextAttendanceId := db.nextAttendanceId + 1 },
          200)

/-- The states reachable from a fresh database by the two mutating
routes (the reads `home`, `session_detail`, `qr_code` and `scan_page`
never write). -/
inductive Reachable : DB → Prop
  | init : Reachable initDB
  | create (cn token now : String) {db : DB} (h : Reachable db) :
      Reachable (create_session cn token now db).1
  | mark (p : Option Payload) (now : String) {db : DB} (h : Reachable db) :
      Reachable (mark_attendance p now db).1

/-- The `UNIQUE(session_id, student_id)` invariant of the `attendance`
table: no two rows agree on both `session_id` and `student_id`. -/
def AttUnique (db : DB) : Prop :=
  db.attendance.Pairwise
    (fun r1 r2 => ¬(r1.session_id = r2.session_id ∧ r1.student_id = r2.student_id))

/-- The `sessions` table invariant induced by `AUTOINCREMENT`: row ids
strictly increase in insertion order and stay below the next id. -/
def SessAscending (db : DB) : Prop :=
  db.sessions.Pairwise (fun a b => a.id < b.id) ∧
    ∀ s ∈ db.sessions, s.id < db.nextSessionId

/-- Number of attendance rows of one session. -/
def attendanceCount (sid : Nat) (db : DB) : Nat :=
  (db.attendance.filter (fun r => r.session_id == sid)).length

instance (db : DB) : Decidable (AttUnique db) := by
  unfold AttUnique; infer_instance

/-- A concrete session used in the closed instances below. -/
def sessionA : Session := ⟨1, "abc123", "Algorithms 101", "2026-01-01T09:00:00"⟩

/-- A database holding the session `sessionA` and no attendance rows. -/
def dbOne : DB := ⟨[sessionA], [], 2, 1⟩

/-- A database holding `sessionA` and two of its attendance rows, in
insertion order (earlier row first). -/
def dbTwo : DB :=
  ⟨[sessionA],
   [⟨1, 1, "S1", "Ada", "2026-01-01T10:00:00"⟩,
    ⟨2, 1, "S2", "Bob", "2026-01-01T10:05:00"⟩], 2, 3⟩

/-! ### Properties of the `ORDER BY ... DESC` sort -/

theorem insertGE_perm {α : Type} (ge : α → α → Bool) (x : α) (l : List α) :
    (insertGE ge x l).Perm (x :: l) := by
  induction l with
  | nil => simp [insertGE]
  | cons y ys ih =>
    simp only [insertGE]
    split
    · exact List.Perm.refl _
    · exact (ih.cons y).trans (List.Perm.swap x y ys)

theorem sortGE_perm {α : Type} (ge : α → α → Bool) (l : List α) :
    (sortGE ge l).Perm l := by
  induction l with
  | nil => simp [sortGE]
  | cons x xs ih => exact (insertGE_perm ge x (sortGE ge xs)).trans (ih.cons x)

theorem insertGE_pairwise {α : Type} {ge : α → α → Bool}
    (htot : ∀ a b, ge a b = false → ge b a = true)
    (htrans : ∀ a b c, ge a b = true → ge b c = true → ge a c = true)
    (x : α) (l : List α) (h : l.Pairwise (fun a b => ge a b = true)) :
    (insertGE ge x l).Pairwise (fun a b => ge a b = true) := by
  induction l with
  | nil => simp [insertGE]
  | cons y ys ih =>
    simp only [insertGE]
    by_cases hxy : ge x y = true
    · rw [if_pos hxy]
      refine List.Pairwise.cons ?_ h
      intro z hz
      rcases List.mem_cons.mp hz with rfl | hz
      · exact hxy
      · exact htrans x y z hxy (List.rel_of_pairwise_cons h hz)
    · rw [if_neg hxy]
      have hpc := List.pairwise_cons.mp h
      refine List.Pairwise.cons ?_ (ih hpc.2)
      intro z hz
      rcases List.mem_cons.mp ((insertGE_perm ge x ys).mem_iff.mp hz) with heq | hz
      · rw [heq]
        exact htot x y (Bool.eq_false_iff.mpr hxy)
      · exact hpc.1 z hz

theorem sortGE_pairwise {α : Type} {ge : α → α → Bool}
    (htot : ∀ a b, ge a b = false → ge b a = true)
    (htrans : ∀ a b c, ge a b = true → ge b c = true → ge a c = true)
    (l : List α) : (sortGE ge l).Pairwise (fun a b => ge a b = true) := by
  induction l with
  | nil => simp [sortGE]
  | cons x xs ih => exact insertGE_pairwise htot htrans x _ ih

theorem insertGE_eq_append {α : Type} (ge : α → α → Bool) (x : α) (l : List α)
    (h : ∀ y ∈ l, ge x y = false) : insertGE ge x l = l ++ [x] := by
  induction l with
  | nil => simp [insertGE]
  | cons y ys ih =>
    have hxy : ge x y = false := h y (List.mem_cons_self y ys)
    simp only [insertGE]
    rw [if_neg (by simp [hxy])]
    simp [ih (fun z hz => h z (List.mem_cons_of_mem y hz))]

theorem sortGE_eq_reverse {α : Type} (ge : α → α → Bool) (l : List α)
    (h : l.Pairwise (fun a b => ge a b = false)) : sortGE ge l = l.reverse := by
  induction l with
  | nil => simp [sortGE]
  | cons x xs ih =>
    have hpc := List.pairwise_cons.mp h
    simp only [sortGE]
    rw [ih hpc.2, insertGE_eq_append ge x xs.reverse
      (fun y hy => hpc.1 y (List.mem_reverse.mp hy)), List.reverse_cons]

/-! ### The SQLite `TEXT` order is total and transitive -/

theorem listLe_total (a b : List Char) (h : listLe a b = false) :
    listLe b a = true := by
  induction a generalizing b with
  | nil => simp [listLe] at h
  | cons x xs ih =>
    cases b with
    | nil => simp [listLe]
    | cons y ys =>
      simp only [listLe] at h ⊢
      by_cases hxy : x < y
      · rw [if_pos hxy] at h
        simp at h
      · by_cases hyx : y < x
        · rw [if_pos hyx]
        · have hxyeq : x = y := le_antisymm (le_of_not_lt hyx) (le_of_not_lt hxy)
          subst hxyeq
          rw [if_neg hxy, if_neg hyx] at h ⊢
          exact ih ys h

theorem listLe_trans (a b c : List Char) (h1 : listLe a b = true)
    (h2 : listLe b c = true) : listLe a c = true := by
  induction a generalizing b c with
  | nil => simp [listLe]
  | cons x xs ih =>
    cases b with
    | nil => simp [listLe] at h1
    | cons y ys =>
      cases c with
      | nil => simp [listLe] at h2
      | cons z zs =>
        simp only [listLe] at h1 h2 ⊢
        by_cases hxy : x < y
        · by_cases hyz : y < z
          · rw [if_pos (lt_trans hxy hyz)]
          · by_cases hzy : z < y
            · rw [if_neg hyz, if_pos hzy] at h2
              simp at h2
            · have hyzeq : y = z := le_antisymm (le_of_not_lt hzy) (le_of_not_lt hyz)
              subst hyzeq
              rw [if_pos hxy]
        · by_cases hyx : y < x
          · rw [if_neg hxy, if_pos hyx] at h1
            simp at h1
          · have hxyeq : x = y := le_antisymm (le_of_not_lt hyx) (le_of_not_lt hxy)
            subst hxyeq
            rw [if_neg hxy, if_neg hyx] at h1
            by_cases hxz : x < z
            · rw [if_pos hxz]
            · by_cases hzx : z < x
              · rw [if_neg hxz, if_pos hzx] at h2
                simp at h2
              · have hxzeq : x = z := le_antisymm (le_of_not_lt hzx) (le_of_not_lt hxz)
                subst hxzeq
                rw [if_neg hxz, if_neg hzx] at h2 ⊢
                exact ih ys zs h1 h2

theorem strLe_total (s t : String) (h : strLe s t = false) : strLe t s = true :=
  listLe_total s.data t.data h

theorem strLe_trans (s t u : String) (h1 : strLe s t = true)
    (h2 : strLe t u = true) : strLe s u = true :=
  listLe_trans s.data t.data u.data h1 h2

/-! ### Preservation of the table invariants -/

theorem attUnique_create (cn tok now : String) (db : DB) (h : AttUnique db) :
    AttUnique (create_session cn tok now db).1 := by
  unfold AttUnique at h ⊢
  simp only [create_session]
  split
  · exact h
  split
  · exact h
  · exact h

theorem attUnique_mark (p : Option Payload) (now : String) (db : DB)
    (h : AttUnique db) : AttUnique (mark_attendance p now db).1 := by
  unfold AttUnique at h ⊢
  simp only [mark_attendance]
  split
  · exact h
  split
  · exact h
  split
  · exact h
  · rename_i s hfind hdup
    simp only
    rw [List.pairwise_append]
    refine ⟨h, List.pairwise_singleton _ _, ?_⟩
    intro r hr r2 hr2
    simp only [List.mem_singleton] at hr2
    subst hr2
    intro hcontra
    exact hdup (List.any_eq_true.mpr ⟨r, hr, by simp [hcontra.1, hcontra.2]⟩)

theorem reachable_attUnique (db : DB) (h : Reachable db) : AttUnique db := by
  induction h with
  | init => simp [AttUnique, initDB]
  | create cn tok now h ih => exact attUnique_create _ _ _ _ ih
  | mark p now h ih => exact attUnique_mark _ _ _ ih

theorem sessAsc_create (cn tok now : String) (db : DB) (h : SessAscending db) :
    SessAscending (create_session cn tok now db).1 := by
  obtain ⟨h1, h2⟩ := h
  simp only [SessAscending, create_session]
  split
  · exact ⟨h1, h2⟩
  split
  · exact ⟨h1, h2⟩
  · constructor
    · rw [List.pairwise_append]
      refine ⟨h1, List.pairwise_singleton _ _, ?_⟩
      intro a ha b hb
      simp only [List.mem_singleton] at hb
      subst hb
      exact h2 a ha
    · intro s hs
      rcases List.mem_append.mp hs with hs | hs
      · exact Nat.lt_succ_of_lt (h2 s hs)
      · simp only [List.mem_singleton] at hs
        subst hs
        exact Nat.lt_succ_self _

theorem sessAsc_mark (p : Option Payload) (now : String) (db : DB)
    (h : SessAscending db) : SessAscending (mark_attendance p now db).1 := by
  obtain ⟨h1, h2⟩ := h
  simp only [SessAscending, mark_attendance]
  split
  · exact ⟨h1, h2⟩
  split
  · exact ⟨h1, h2⟩
  split
  · exact ⟨h1, h2⟩
  · exact ⟨h1, h2⟩

theorem reachable_sessAsc (db : DB) (h : Reachable db) : SessAscending db := by
  induction h with
  | init => simp [SessAscending, initDB]
  | create cn tok now h ih => exact sessAsc_create _ _ _ _ ih
  | mark p now h ih => exact sessAsc_mark _ _ _ ih

/-! ### Characterisations of the mark-attendance branches -/

theorem find?_append_of_none {α : Type} (p : α → Bool) (l1 l2 : List α)
    (h : l1.find? p = none) : (l1 ++ l2).find? p = l2.find? p := by
  induction l1 with
  | nil => simp
  | cons x xs ih =>
    rw [List.find?_cons] at h
    rw [List.cons_append, List.find?_cons]
    cases hx : p x with
    | true => rw [hx] at h; cases h
    | false =>
      rw [hx] at h
      dsimp only at h ⊢
      exact ih h

theorem mark_attendance_success (tok sid name now : String) (db : DB) (s : Session)
    (htok : strip tok ≠ "") (hsid : strip sid ≠ "") (hname : strip name ≠ "")
    (hfind : db.sessions.find? (fun x => x.token == strip tok) = some s)
    (hnew : ∀ r ∈ db.attendance, ¬(r.session_id = s.id ∧ r.student_id = strip sid)) :
    mark_attendance (some ⟨some tok, some sid, some name⟩) now db =
      ({ db with
          attendance := db.attendance ++
            [⟨db.nextAttendanceId, s.id, strip sid, strip name, now⟩],
          nextAttendanceId := db.nextAttendanceId + 1 }, 200) := by
  simp only [mark_attendance, Option.getD_some]
  rw [if_neg (by simp [htok, hsid, hname]), hfind]
  dsimp only
  rw [if_neg ?_]
  simp only [List.any_eq_true, not_exists]
  intro r hr
  obtain ⟨hmem, hmatch⟩ := hr
  simp only [Bool.and_eq_true, beq_iff_eq] at hmatch
  exact hnew r hmem hmatch

theorem mark_attendance_conflict (tok sid name now : String) (db : DB) (s : Session)
    (htok : strip tok ≠ "") (hsid : strip sid ≠ "") (hname : strip name ≠ "")
    (hfind : db.sessions.find? (fun x => x.token == strip tok) = some s)
    (hdup : ∃ r ∈ db.attendance, r.session_id = s.id ∧ r.student_id = strip sid) :
    mark_attendance (some ⟨some tok, some sid, some name⟩) now db = (db, 409) := by
  simp only [mark_attendance, Option.getD_some]
  rw [if_neg (by simp [htok, hsid, hname]), hfind]
  dsimp only
  rw [if_pos ?_]
  simp only [List.any_eq_true, Bool.and_eq_true, beq_iff_eq]
  obtain ⟨r, hmem, h1, h2⟩ := hdup
  exact ⟨r, hmem, h1, h2⟩

/-! ### The claims -/

/-- C1: with a valid session token and a student id not yet recorded
for that session (all three fields non-blank after trimming), marking
attendance succeeds with HTTP 200 and grows the session's attendance
count by one; the identical second call fails with HTTP 409 and leaves
the database, hence the count, unchanged. -/
theorem mark_attendance_succeeds_once_then_conflicts (db : DB)
    (tok sid name now1 now2 : String) (s : Session)
    (htok : strip tok ≠ "") (hsid : strip sid ≠ "") (hname : strip name ≠ "")
    (hfind : db.sessions.find? (fun x => x.token == strip tok) = some s)
    (hnew : ∀ r ∈ db.attendance, ¬(r.session_id = s.id ∧ r.student_id = strip sid)) :
    (mark_attendance (some ⟨some tok, some sid, some name⟩) now1 db).2 = 200 ∧
    attendanceCount s.id (mark_attendance (some ⟨some tok, some sid, some name⟩) now1 db).1 =
      attendanceCount s.id db + 1 ∧
    mark_attendance (some ⟨some tok, some sid, some name⟩) now2
        (mark_attendance (some ⟨some tok, some sid, some name⟩) now1 db).1 =
      ((mark_attendance (some ⟨some tok, some sid, some name⟩) now1 db).1, 409) := by
  have h1 := mark_attendance_success tok sid name now1 db s htok hsid hname hfind hnew
  rw [h1]
  refine ⟨rfl, ?_, ?_⟩
  · simp [attendanceCount, List.filter_append]
  · exact mark_attendance_conflict tok sid name now2 _ s htok hsid hname hfind
      ⟨⟨db.nextAttendanceId, s.id, strip sid, strip name, now1⟩, by simp, rfl, rfl⟩

theorem mark_attendance_succeeds_once_then_conflicts_witness :
    (mark_attendance (some ⟨some "abc123", some " S1 ", some "Ada"⟩) "t1" dbOne).2 = 200 ∧
    attendanceCount sessionA.id
        (mark_attendance (some ⟨some "abc123", some " S1 ", some "Ada"⟩) "t1" dbOne).1 =
      attendanceCount sessionA.id dbOne + 1 ∧
    mark_attendance (some ⟨some "abc123", some " S1 ", some "Ada"⟩) "t2"
        (mark_attendance (some ⟨some "abc123", some " S1 ", some "Ada"⟩) "t1" dbOne).1 =
      ((mark_attendance (some ⟨some "abc123", some " S1 ", some "Ada"⟩) "t1" dbOne).1, 409) :=
  mark_attendance_succeeds_once_then_conflicts dbOne "abc123" " S1 " "Ada" "t1" "t2" sessionA
    (by decide) (by decide) (by decide) (by decide) (by decide)

/-- C2 counterexample: with no sessions stored, a request whose token
"ghost" matches no session but whose student id is blank is rejected
with HTTP 400 — the field validation runs before the token lookup — and
not with HTTP 404, refuting "fails with 404 regardless of the values of
student_id and student_name". -/
theorem mark_attendance_unknown_token_not_always_404 :
    (mark_attendance (some ⟨some "ghost", some "", some "Ada"⟩)
      "2026-01-01T00:00:00" initDB).2 = 400 ∧
    (mark_attendance (some ⟨some "ghost", some "", some "Ada"⟩)
      "2026-01-01T00:00:00" initDB).2 ≠ 404 := by
  decide

/-- C2 (amended): a request in which all three fields are non-blank
after trimming and whose token matches no stored session fails with
HTTP 404 and leaves the database unchanged, regardless of the student
fields' values. -/
theorem mark_attendance_unknown_token_404 (p : Payload) (now : String) (db : DB)
    (htok : strip (p.token.getD "") ≠ "")
    (hsid : strip (p.student_id.getD "") ≠ "")
    (hname : strip (p.student_name.getD "") ≠ "")
    (hfind : db.sessions.find? (fun s => s.token == strip (p.token.getD "")) = none) :
    mark_attendance (some p) now db = (db, 404) := by
  simp only [mark_attendance, Option.getD_some]
  rw [if_neg (by simp [htok, hsid, hname]), hfind]

theorem mark_attendance_unknown_token_404_witness :
    mark_attendance (some ⟨some "ghost", some "S1", some "Ada"⟩) "t1" dbOne = (dbOne, 404) :=
  mark_attendance_unknown_token_404 ⟨some "ghost", some "S1", some "Ada"⟩ "t1" dbOne
    (by decide) (by decide) (by decide) (by decide)

/-- C3: a request in which the token, the student id or the student
name is blank (empty or whitespace-only) after trimming fails with
HTTP 400 and returns the database untouched — both tables unchanged. -/
theorem mark_attendance_blank_field_400 (payload : Option Payload)
    (now : String) (db : DB)
    (h : strip ((payload.getD ⟨none, none, none⟩).token.getD "") = "" ∨
      strip ((payload.getD ⟨none, none, none⟩).student_id.getD "") = "" ∨
      strip ((payload.getD ⟨none, none, none⟩).student_name.getD "") = "") :
    mark_attendance payload now db = (db, 400) := by
  simp only [mark_attendance]
  rw [if_pos h]

theorem mark_attendance_blank_field_400_witness :
    mark_attendance (some ⟨some "abc123", some "   ", some "Ada"⟩) "t1" dbOne =
      (dbOne, 400) :=
  mark_attendance_blank_field_400 (some ⟨some "abc123", some "   ", some "Ada"⟩)
    "t1" dbOne (by decide)

/-- C4: creating a session with an empty or whitespace-only class name
is a no-op on the persistent state: the database is returned unchanged
and the result is the redirect back to the home page. -/
theorem create_session_blank_name_noop (class_name token now : String)
    (db : DB) (h : strip class_name = "") :
    create_session class_name token now db = (db, CreateResult.redirectHome) := by
  simp only [create_session]
  rw [if_pos h]

theorem create_session_blank_name_noop_witness :
    create_session "   " "tokX" "2026-01-01T09:00:00" dbOne =
      (dbOne, CreateResult.redirectHome) :=
  create_session_blank_name_noop "   " "tokX" "2026-01-01T09:00:00" dbOne (by decide)

/-- C5: creating a session with a non-blank class name and a freshly
drawn token (the `secrets.token_urlsafe` draw, which the code relies
on being distinct from all stored tokens) succeeds with a redirect to
the detail page, the new token identifies exactly one stored session —
the new row — and looking the token up afterwards returns that session
with the trimmed class name. -/
theorem create_session_roundtrip (class_name token now : String) (db : DB)
    (hname : strip class_name ≠ "")
    (hfresh : ∀ s ∈ db.sessions, s.token ≠ token) :
    (create_session class_name token now db).2 = CreateResult.redirectDetail token ∧
    ((create_session class_name token now db).1.sessions.filter
        (fun s => s.token == token)) =
      [⟨db.nextSessionId, token, strip class_name, now⟩] ∧
    (session_detail token (create_session class_name token now db).1).map Prod.fst =
      some ⟨db.nextSessionId, token, strip class_name, now⟩ := by
  have hany : (db.sessions.any (fun s => s.token == token)) = false := by
    rw [List.any_eq_false]
    intro s hs
    simp only [beq_iff_eq]
    exact hfresh s hs
  have hfnone : db.sessions.find? (fun s => s.token == token) = none := by
    rw [List.find?_eq_none]
    intro s hs
    simp only [beq_iff_eq]
    exact hfresh s hs
  have hcs : create_session class_name token now db =
      ({ db with
          sessions := db.sessions ++ [⟨db.nextSessionId, token, strip class_name, now⟩],
          nextSessionId := db.nextSessionId + 1 }, .redirectDetail token) := by
    simp only [create_session]
    rw [if_neg hname, if_neg (by simp [hany])]
  rw [hcs]
  refine ⟨rfl, ?_, ?_⟩
  · simp only [List.filter_append]
    have hnil : db.sessions.filter (fun s => s.token == token) = [] := by
      rw [List.filter_eq_nil_iff]
      intro s hs
      simp only [beq_iff_eq]
      exact hfresh s hs
    rw [hnil, List.nil_append]
    simp
  · unfold session_detail
    rw [find?_append_of_none _ _ _ hfnone]
    simp

theorem create_session_roundtrip_witness :
    (create_session " Algorithms 101 " "abc123" "2026-01-01T09:00:00" initDB).2 =
      CreateResult.redirectDetail "abc123" ∧
    ((create_session " Algorithms 101 " "abc123" "2026-01-01T09:00:00" initDB).1.sessions.filter
        (fun s => s.token == "abc123")) =
      [⟨initDB.nextSessionId, "abc123", strip " Algorithms 101 ", "2026-01-01T09:00:00"⟩] ∧
    (session_detail "abc123"
        (create_session " Algorithms 101 " "abc123" "2026-01-01T09:00:00" initDB).1).map Prod.fst =
      some ⟨initDB.nextSessionId, "abc123", strip " Algorithms 101 ", "2026-01-01T09:00:00"⟩ :=
  create_session_roundtrip " Algorithms 101 " "abc123" "2026-01-01T09:00:00" initDB
    (by decide) (by decide)

/-- C6: every state reachable from the fresh database satisfies the
`UNIQUE(session_id, student_id)` invariant — at most one attendance row
per (session, student) pair — and each of the two writing operations
preserves the invariant from an arbitrary state (the reading routes do
not write at all). -/
theorem attendance_pair_unique_invariant :
    (∀ db : DB, Reachable db → AttUnique db) ∧
    (∀ (cn tok now : String) (db : DB), AttUnique db →
      AttUnique (create_session cn tok now db).1) ∧
    (∀ (p : Option Payload) (now : String) (db : DB), AttUnique db →
      AttUnique (mark_attendance p now db).1) :=
  ⟨reachable_attUnique, attUnique_create, attUnique_mark⟩

theorem attendance_pair_unique_invariant_witness :
    AttUnique (mark_attendance (some ⟨some "abc123", some "S1", some "Ada"⟩) "t1"
      (create_session "Algo" "abc123" "d0" initDB).1).1 :=
  attendance_pair_unique_invariant.1 _
    (Reachable.mark _ _ (Reachable.create _ _ _ Reachable.init))

/-- C7: in every reachable state the home page query returns exactly
the stored sessions, most recently created first: since `id` grows in
creation order, `ORDER BY id DESC` yields the reverse of the insertion
order. -/
theorem home_lists_sessions_most_recent_first (db : DB) (h : Reachable db) :
    home db = db.sessions.reverse ∧ (home db).Perm db.sessions := by
  have hasc := reachable_sessAsc db h
  constructor
  · unfold home
    exact sortGE_eq_reverse _ _
      (hasc.1.imp (fun hab => decide_eq_false (Nat.not_le.mpr hab)))
  · exact sortGE_perm _ _

theorem home_lists_sessions_most_recent_first_witness :
    home (create_session "B" "t2" "d2" (create_session "A" "t1" "d1" initDB).1).1 =
      (create_session "B" "t2" "d2"
        (create_session "A" "t1" "d1" initDB).1).1.sessions.reverse ∧
    (home (create_session "B" "t2" "d2"
        (create_session "A" "t1" "d1" initDB).1).1).Perm
      (create_session "B" "t2" "d2"
        (create_session "A" "t1" "d1" initDB).1).1.sessions :=
  home_lists_sessions_most_recent_first _
    (Reachable.create _ _ _ (Reachable.create _ _ _ Reachable.init))

/-- C8: whenever the session-detail page is shown, the attendance list
it receives is a permutation of exactly the stored rows whose
`session_id` is the session's id, sorted most recent first by
`marked_at` (descending in SQLite's `TEXT` order). -/
theorem session_detail_attendance_exact_and_sorted (tok : String) (db : DB)
    (s : Session) (atts : List AttendanceRecord)
    (h : session_detail tok db = some (s, atts)) :
    atts.Perm (db.attendance.filter (fun r => r.session_id == s.id)) ∧
    atts.Pairwise (fun a b => strLe b.marked_at a.marked_at = true) := by
  unfold session_detail at h
  cases hfind : db.sessions.find? (fun x => x.token == tok) with
  | none => rw [hfind] at h; cases h
  | some s2 =>
    rw [hfind] at h
    dsimp only at h
    simp only [Option.some.injEq, Prod.mk.injEq] at h
    obtain ⟨hs, hatts⟩ := h
    subst hs
    rw [← hatts]
    exact ⟨sortGE_perm _ _,
      sortGE_pairwise (fun a b hf => strLe_total b.marked_at a.marked_at hf)
        (fun a b c h1 h2 => strLe_trans c.marked_at b.marked_at a.marked_at h2 h1) _⟩

theorem session_detail_attendance_exact_and_sorted_witness :
    ([⟨2, 1, "S2", "Bob", "2026-01-01T10:05:00"⟩,
      ⟨1, 1, "S1", "Ada", "2026-01-01T10:00:00"⟩] : List AttendanceRecord).Perm
      (dbTwo.attendance.filter (fun r => r.session_id == sessionA.id)) ∧
    ([⟨2, 1, "S2", "Bob", "2026-01-01T10:05:00"⟩,
      ⟨1, 1, "S1", "Ada", "2026-01-01T10:00:00"⟩] :
        List AttendanceRecord).Pairwise
      (fun a b => strLe b.marked_at a.marked_at = true) :=
  session_detail_attendance_exact_and_sorted "abc123" dbTwo sessionA
    [⟨2, 1, "S2", "Bob", "2026-01-01T10:05:00"⟩,
     ⟨1, 1, "S1", "Ada", "2026-01-01T10:00:00"⟩] (by decide)

/-- C9: no operation mutates or deletes an existing row: `create_session`
at most appends to `sessions` and never touches `attendance`, and
`mark_attendance` never touches `sessions` and at most appends to
`attendance` (the reading routes return the state unchanged by
construction). -/
theorem operations_append_only :
    (∀ (cn tok now : String) (db : DB),
      (∃ tail, (create_session cn tok now db).1.sessions = db.sessions ++ tail) ∧
      (create_session cn tok now db).1.attendance = db.attendance) ∧
    (∀ (p : Option Payload) (now : String) (db : DB),
      (mark_attendance p now db).1.sessions = db.sessions ∧
      ∃ tail, (mark_attendance p now db).1.attendance = db.attendance ++ tail) := by
  constructor
  · intro cn tok now db
    simp only [create_session]
    split
    · exact ⟨⟨[], by simp⟩, rfl⟩
    split
    · exact ⟨⟨[], by simp⟩, rfl⟩
    · exact ⟨⟨_, rfl⟩, rfl⟩
  · intro p now db
    simp only [mark_attendance]
    split
    · exact ⟨rfl, ⟨[], by simp⟩⟩
    split
    · exact ⟨rfl, ⟨[], by simp⟩⟩
    split
    · exact ⟨rfl, ⟨[], by simp⟩⟩
    · exact ⟨rfl, ⟨_, rfl⟩⟩

/-- C10: a request whose body is absent or not valid JSON is treated as
the empty payload and rejected with HTTP 400 (never a server error);
on success the stored row holds the trimmed student id and name, so a
second submission whose student id differs only by surrounding
whitespace collides with the stored row and receives HTTP 409 with the
database unchanged. -/
theorem mark_attendance_json_default_and_trim :
    (∀ (now : String) (db : DB), mark_attendance none now db = (db, 400)) ∧
    (∀ (tok sid1 name1 sid2 name2 now1 now2 : String) (db : DB) (s : Session),
      strip tok ≠ "" → strip sid1 ≠ "" → strip name1 ≠ "" → strip name2 ≠ "" →
      strip sid2 = strip sid1 →
      db.sessions.find? (fun x => x.token == strip tok) = some s →
      (∀ r ∈ db.attendance, ¬(r.session_id = s.id ∧ r.student_id = strip sid1)) →
      (mark_attendance (some ⟨some tok, some sid1, some name1⟩) now1 db).1.attendance =
        db.attendance ++ [⟨db.nextAttendanceId, s.id, strip sid1, strip name1, now1⟩] ∧
      mark_attendance (some ⟨some tok, some sid2, some name2⟩) now2
          (mark_attendance (some ⟨some tok, some sid1, some name1⟩) now1 db).1 =
        ((mark_attendance (some ⟨some tok, some sid1, some name1⟩) now1 db).1, 409)) := by
  constructor
  · intro now db
    rfl
  · intro tok sid1 name1 sid2 name2 now1 now2 db s htok hsid1 hname1 hname2 hsid2 hfind hnew
    have h1 := mark_attendance_success tok sid1 name1 now1 db s htok hsid1 hname1 hfind hnew
    constructor
    · rw [h1]
    · rw [h1]
      exact mark_attendance_conflict tok sid2 name2 now2 _ s htok
        (by rw [hsid2]; exact hsid1) hname2 hfind
        ⟨⟨db.nextAttendanceId, s.id, strip sid1, strip name1, now1⟩,
          by simp, rfl, hsid2.symm⟩

theorem mark_attendance_json_default_and_trim_witness :
    mark_attendance none "t0" dbOne = (dbOne, 400) ∧
    (mark_attendance (some ⟨some "abc123", some " S1 ", some "Ada"⟩) "t1" dbOne).1.attendance =
      dbOne.attendance ++
        [⟨dbOne.nextAttendanceId, sessionA.id, strip " S1 ", strip "Ada", "t1"⟩] ∧
    mark_attendance (some ⟨some "abc123", some "S1", some "Bob"⟩) "t2"
        (mark_attendance (some ⟨some "abc123", some " S1 ", some "Ada"⟩) "t1" dbOne).1 =
      ((mark_attendance (some ⟨some "abc123", some " S1 ", some "Ada"⟩) "t1" dbOne).1, 409) :=
  ⟨mark_attendance_json_default_and_trim.1 "t0" dbOne,
   mark_attendance_json_default_and_trim.2 "abc123" " S1 " "Ada" "S1" "Bob" "t1" "t2"
     dbOne sessionA (by decide) (by decide) (by decide) (by decide) (by decide)
     (by decide) (by decide)⟩

end AttendanceApp
